import Mathlib

/-!
# Verification of the n42revm transaction-driver components

Shallow embedding of the pre-execution handlers (`crates/handler/src/pre_execution.rs`),
the Taiko handler overrides (`crates/revm/src/taiko/handler_register.rs`), the
commit wrappers (`crates/optimism/src/api/exec.rs`, `crates/inspector/src/mainnet_inspect.rs`),
the precompile dispatch (`crates/revm/src/context/context_precompiles.rs`) and the
inspector context (`crates/inspector/src/inspector_context.rs`).

Machine integers are modelled as `Nat` with explicit saturation/wrap bounds where the
source uses `saturating_*` or wrapping arithmetic.  `U256` values are naturals below
`2^256`, `u64` values naturals below `2^64`.  Note that `Nat` subtraction is itself
saturating at zero, which matches `U256::saturating_sub` exactly.
-/

/-- 20-byte account identifier, modelled as a natural number below `2^160`. -/
abbrev Address := Nat

/-- Largest `U256` value. -/
def U256_MAX : Nat := 2 ^ 256 - 1

/-- Largest `u64` value. -/
def U64_MAX : Nat := 2 ^ 64 - 1

/-- `U256::saturating_mul`. -/
def satMulU256 (a b : Nat) : Nat := min (a * b) U256_MAX

/-- `U256::saturating_add`. -/
def satAddU256 (a b : Nat) : Nat := min (a + b) U256_MAX

/-- `u64::saturating_add`. -/
def satAddU64 (a b : Nat) : Nat := min (a + b) U64_MAX

/-- Wrapping `U256` multiplication (ruint `Mul` wraps modulo `2^256`). -/
def wrapMulU256 (a b : Nat) : Nat := (a * b) % 2 ^ 256

/-- Hardfork identifiers, ordered; from the `specification` crate (external to `src/`). -/
inductive SpecId where
  | FRONTIER
  | HOMESTEAD
  | TANGERINE
  | SPURIOUS_DRAGON
  | BYZANTIUM
  | CONSTANTINOPLE
  | PETERSBURG
  | ISTANBUL
  | BERLIN
  | LONDON
  | MERGE
  | SHANGHAI
  | CANCUN
  | PRAGUE
  | OSAKA
deriving DecidableEq, Repr

/-- Numeric rank of a hardfork, mirroring the `#[repr(u8)]` discriminant order. -/
def SpecId.toRank : SpecId → Nat
  | .FRONTIER => 0
  | .HOMESTEAD => 1
  | .TANGERINE => 2
  | .SPURIOUS_DRAGON => 3
  | .BYZANTIUM => 4
  | .CONSTANTINOPLE => 5
  | .PETERSBURG => 6
  | .ISTANBUL => 7
  | .BERLIN => 8
  | .LONDON => 9
  | .MERGE => 10
  | .SHANGHAI => 11
  | .CANCUN => 12
  | .PRAGUE => 13
  | .OSAKA => 14

/-- `SpecId::is_enabled_in`: `self as u8 >= other as u8`. -/
def SpecId.is_enabled_in (self other : SpecId) : Bool :=
  decide (other.toRank ≤ self.toRank)

/-- Transaction type tag (`context_interface::transaction::TransactionType`). -/
inductive TransactionType where
  | legacy
  | eip2930
  | eip1559
  | eip4844
  | eip7702
  | custom
deriving DecidableEq, Repr

/-- Big-endian byte expansion: `beBytes k v` is the `k`-byte big-endian encoding
of `v` (most significant byte first, truncating above `2^(8k)`). -/
def beBytes : Nat → Nat → List Nat
  | 0, _ => []
  | k + 1, v => beBytes k (v / 256) ++ [v % 256]

/-- The 20 big-endian bytes of an address. -/
def addressBytes (a : Address) : List Nat := beBytes 20 a

/-- Bytecode kinds relevant to the verified components (`bytecode` crate, external
to `src/`): legacy raw bytes or an EIP-7702 delegation to a target address. -/
inductive Bytecode where
  | legacy (bytes : List Nat)
  | eip7702 (delegated : Address)
deriving DecidableEq, Repr

/-- Raw bytes of a bytecode.  An EIP-7702 delegation is the magic `0xef 0x01 0x00`
followed by the 20-byte delegated address. -/
def Bytecode.bytes : Bytecode → List Nat
  | .legacy bs => bs
  | .eip7702 a => 0xef :: 0x01 :: 0x00 :: addressBytes a

/-- `Bytecode::new_eip7702`. -/
def Bytecode.new_eip7702 (address : Address) : Bytecode := .eip7702 address

/-- `Bytecode::is_empty`. -/
def Bytecode.is_empty (b : Bytecode) : Bool := b.bytes.isEmpty

/-- `Bytecode::is_eip7702`. -/
def Bytecode.is_eip7702 : Bytecode → Bool
  | .eip7702 _ => true
  | _ => false

/-- Abstract stand-in for `Bytecode::hash_slow` (keccak of the raw bytes).  The
verified claims never inspect hash values, only store them. -/
def Bytecode.hash_slow (b : Bytecode) : Nat :=
  b.bytes.foldl (fun h x => h * 256 + x + 1) 1

/-- `AccountInfo`: nonce (`u64`), balance (`U256`), code hash and optional code. -/
structure AccountInfo where
  nonce : Nat
  balance : Nat
  code_hash : Nat
  code : Option Bytecode
deriving DecidableEq, Repr

/-- Journal view of an account: its info plus the touched status flag. -/
structure Account where
  info : AccountInfo
  touched : Bool
deriving DecidableEq, Repr

/-- `Account::is_empty`: empty code, zero balance, zero nonce. -/
def Account.is_empty (a : Account) : Bool :=
  (match a.info.code with
    | some c => c.is_empty
    | none => true)
  && a.info.balance == 0 && a.info.nonce == 0

/-- The journaled state fragment the pre-execution handlers touch: the account
map and the warm address / warm storage-slot access sets, plus the spec flag
installed by `set_spec_id`. -/
structure JournalState where
  accounts : Address → Account
  warmAddresses : Address → Bool
  warmSlots : Address → Nat → Bool
  specId : SpecId

/-- Overwrite one account in the state. -/
def updateAccount (st : JournalState) (a : Address) (acc : Account) : JournalState :=
  { st with accounts := fun x => if x = a then acc else st.accounts x }

/-- `Journal::warm_account`: mark an address warm. -/
def warm_account (st : JournalState) (a : Address) : JournalState :=
  { st with warmAddresses := fun x => if x = a then true else st.warmAddresses x }

/-- Mark one storage slot of an address warm. -/
def warm_slot (st : JournalState) (a : Address) (slot : Nat) : JournalState :=
  { st with warmSlots := fun x s => if x = a ∧ s = slot then true else st.warmSlots x s }

/-- `Journal::warm_account_and_storage`: warm an address and each listed slot. -/
def warm_account_and_storage (st : JournalState) (a : Address) (slots : List Nat) :
    JournalState :=
  slots.foldl (fun s slot => warm_slot s a slot) (warm_account st a)

/-- `eip7702::PER_EMPTY_ACCOUNT_COST` (specification crate, external to `src/`). -/
def PER_EMPTY_ACCOUNT_COST : Nat := 25000

/-- `eip7702::PER_AUTH_BASE_COST` (specification crate, external to `src/`). -/
def PER_AUTH_BASE_COST : Nat := 12500

/-- `primitives::BLOCKHASH_STORAGE_ADDRESS` (EIP-2935 history contract address,
external to `src/`). -/
def BLOCKHASH_STORAGE_ADDRESS : Address := 0x25a219378dad9b3503c8268c9ca836a52427a4fb

/-- A recovered authorization tuple, as collected by `apply_eip7702_auth_list`:
`authority` is the result of signature recovery (`None` when recovery fails). -/
structure Authorization where
  authority : Option Address
  address : Address
  nonce : Nat
  chainId : Nat
deriving DecidableEq, Repr

/-- One loop iteration of `apply_eip7702_auth_list`
(`crates/handler/src/pre_execution.rs`, lines 161–203): skip when recovery
failed, when the chain id is neither 0 nor the configured one, when the
authority's code is non-empty and not an EIP-7702 delegation, or when the
tuple's nonce differs from the account's; otherwise count the refund for a
non-empty authority, install the delegation code, bump the nonce and touch.
Loading the authority account (`load_account_code`) warms it. -/
def applyAuthorization (chain_id : Nat) (st : JournalState) (refunded_accounts : Nat)
    (authorization : Authorization) : JournalState × Nat :=
  match authorization.authority with
  | none => (st, refunded_accounts)
  | some authority =>
    if authorization.chainId != 0 && authorization.chainId != chain_id then
      (st, refunded_accounts)
    else
      let st := warm_account st authority
      let authority_acc := st.accounts authority
      if (match authority_acc.info.code with
          | some bytecode => !bytecode.is_empty && !bytecode.is_eip7702
          | none => false) then
        (st, refunded_accounts)
      else if authorization.nonce != authority_acc.info.nonce then
        (st, refunded_accounts)
      else
        let refunded_accounts :=
          if !authority_acc.is_empty then refunded_accounts + 1 else refunded_accounts
        let bytecode := Bytecode.new_eip7702 authorization.address
        let authority_acc :=
          { authority_acc with
            info := { authority_acc.info with
              code_hash := bytecode.hash_slow
              code := some bytecode
              nonce := satAddU64 authority_acc.info.nonce 1 }
            touched := true }
        (updateAccount st authority authority_acc, refunded_accounts)

/-- `apply_eip7702_auth_list` (free function, `pre_execution.rs` lines 129–209):
returns 0 and leaves the state alone for non-EIP-7702 transactions, otherwise
folds `applyAuthorization` over the tuples and prices the refund counter. -/
def apply_eip7702_auth_list (chain_id : Nat) (tx_type : TransactionType)
    (authorization_list : List Authorization) (st : JournalState) : JournalState × Nat :=
  if tx_type ≠ .eip7702 then (st, 0)
  else
    let p := authorization_list.foldl
      (fun (p : JournalState × Nat) a => applyAuthorization chain_id p.1 p.2 a) (st, 0)
    (p.1, p.2 * (PER_EMPTY_ACCOUNT_COST - PER_AUTH_BASE_COST))

/-- Alias for the free `apply_eip7702_auth_list`, needed because the
`EthPreExecution` method of the same name would otherwise shadow it. -/
def apply_eip7702_auth_list_free :
    Nat → TransactionType → List Authorization → JournalState → JournalState × Nat :=
  apply_eip7702_auth_list

/-- `EthPreExecution::apply_eip7702_auth_list` (`pre_execution.rs` lines 76–83):
gate the free function behind the Prague check. -/
def EthPreExecution.apply_eip7702_auth_list (spec : SpecId) (chain_id : Nat)
    (tx_type : TransactionType) (authorization_list : List Authorization)
    (st : JournalState) : JournalState × Nat :=
  if spec.is_enabled_in .PRAGUE then
    apply_eip7702_auth_list_free chain_id tx_type authorization_list st
  else (st, 0)

/-- Claim-side phrasing of the EIP-7702 applicability checks: the authority
recovers, the tuple's chain id is 0 or the configured one, the authority's code
is empty or an existing EIP-7702 delegation, and the authority's nonce equals
the tuple's nonce. -/
def authApplies (chain_id : Nat) (st : JournalState) (a : Authorization) : Bool :=
  match a.authority with
  | none => false
  | some authority =>
    (a.chainId == 0 || a.chainId == chain_id)
    && (match (st.accounts authority).info.code with
        | some bytecode => bytecode.is_empty || bytecode.is_eip7702
        | none => true)
    && (a.nonce == (st.accounts authority).info.nonce)

/-- Whether the tuple's recovered authority account is non-empty (already
exists) in the given state; `false` when recovery failed. -/
def authorityExists (st : JournalState) (a : Authorization) : Bool :=
  match a.authority with
  | none => false
  | some authority => !(st.accounts authority).is_empty

/-- Reference count of authorizations that are applied while their authority
account is non-empty at the moment of application, threading the state through
`applyAuthorization` tuple by tuple. -/
def countExistingApplied (chain_id : Nat) : JournalState → List Authorization → Nat
  | _, [] => 0
  | st, a :: rest =>
    (if authApplies chain_id st a && authorityExists st a then 1 else 0)
      + countExistingApplied chain_id (applyAuthorization chain_id st 0 a).1 rest

/-- `EthPreExecution::load_accounts` (`pre_execution.rs` lines 45–74): set the
journal spec flag, warm the coinbase from Shanghai on, warm the EIP-2935
blockhash storage address from Prague on, then warm every access-list entry.
The access list is a list of (address, storage keys) pairs. -/
def EthPreExecution.load_accounts (spec : SpecId) (beneficiary : Address)
    (access_list : List (Address × List Nat)) (st : JournalState) : JournalState :=
  let st := { st with specId := spec }
  let st := if spec.is_enabled_in .SHANGHAI then warm_account st beneficiary else st
  let st := if spec.is_enabled_in .PRAGUE then
    warm_account st BLOCKHASH_STORAGE_ADDRESS else st
  access_list.foldl (fun s p => warm_account_and_storage s p.1 p.2) st

/-- `EthPreExecution::deduct_caller` (`pre_execution.rs` lines 85–117).
`effective_gas_price`, `blob_gasprice` and `total_blob_gas` are supplied by the
external transaction/block traits and passed as parameters; `load_account`
warms the caller.  The balance subtraction saturates (Nat subtraction), the
nonce bump saturates at `u64::MAX` and happens only for calls. -/
def EthPreExecution.deduct_caller (blob_gasprice effective_gas_price : Nat)
    (gas_limit total_blob_gas : Nat) (tx_type : TransactionType) (is_call : Bool)
    (caller : Address) (st : JournalState) : JournalState :=
  let gas_cost := satMulU256 gas_limit effective_gas_price
  let gas_cost :=
    if tx_type = .eip4844 then
      satAddU256 gas_cost (satMulU256 blob_gasprice total_blob_gas)
    else gas_cost
  let st := warm_account st caller
  let caller_account := st.accounts caller
  let caller_account :=
    { caller_account with
      info := { caller_account.info with
        balance := caller_account.info.balance - gas_cost } }
  let caller_account :=
    if is_call then
      { caller_account with
        info := { caller_account.info with
          nonce := satAddU64 caller_account.info.nonce 1 } }
    else caller_account
  updateAccount st caller { caller_account with touched := true }

/-- The combined gas cost deducted by `deduct_caller`, for stating C4/C9. -/
def deductGasCost (blob_gasprice effective_gas_price gas_limit total_blob_gas : Nat)
    (tx_type : TransactionType) : Nat :=
  let gas_cost := satMulU256 gas_limit effective_gas_price
  if tx_type = .eip4844 then
    satAddU256 gas_cost (satMulU256 blob_gasprice total_blob_gas)
  else gas_cost

/-! ## Commit wrappers (`optimism/src/api/exec.rs`, `inspector/src/mainnet_inspect.rs`) -/

/-- `ResultAndState`: execution result paired with the state diff. -/
structure ResultAndState (R S : Type) where
  result : R
  state : S

/-- `ExecuteCommitEvm::transact_commit_previous` (`exec.rs` lines 59–64):
`transact_previous().map(|r| { db.commit(r.state); r.result })`.  The database
and its `commit` method are abstract; the wrapper returns the new database
alongside the mapped result. -/
def transact_commit_previous {E R S DB : Type} (commit : DB → S → DB)
    (transact_previous : Except E (ResultAndState R S)) (db : DB) :
    Except E R × DB :=
  match transact_previous with
  | .error e => (.error e, db)
  | .ok r => (.ok r.result, commit db r.state)

/-- `InspectCommitEvm::inspect_commit_previous` (`mainnet_inspect.rs` lines
67–72): identical shape over the inspecting run. -/
def inspect_commit_previous {E R S DB : Type} (commit : DB → S → DB)
    (inspect_previous : Except E (ResultAndState R S)) (db : DB) :
    Except E R × DB :=
  match inspect_previous with
  | .error e => (.error e, db)
  | .ok r => (.ok r.result, commit db r.state)

/-! ## Precompile dispatch (`revm/src/context/context_precompiles.rs`) -/

/-- Precompile failure kinds (`precompile` crate, external to `src/`). -/
inductive PrecompileError where
  | outOfGas
  | reverted
  | fatal
deriving DecidableEq, Repr

/-- Successful precompile output: gas used and output bytes. -/
structure PrecompileOutput where
  gas_used : Nat
  bytes : List Nat
deriving DecidableEq, Repr

/-- `PrecompileResult`. -/
abbrev PrecompileResult := Except PrecompileError PrecompileOutput

/-- `InnerEvmContext` as seen by precompiles: the config (`env.cfg`) plus the
rest of the mutable context state. -/
structure InnerEvmContext (Cfg St : Type) where
  cfg : Cfg
  state : St

/-- Association-list lookup over address-keyed maps. -/
def alookup {β : Type} (a : Address) : List (Address × β) → Option β
  | [] => none
  | (k, v) :: rest => if k = a then some v else alookup a rest

/-- `ContextPrecompile`: an ordinary precompile is a pure function of input,
gas limit and config; the stateful variants also receive the evm context
(which they may mutate, hence the returned context). -/
inductive ContextPrecompile (Cfg St : Type) where
  | ordinary
      (p : List Nat → Nat → Cfg → PrecompileResult)
  | contextStateful
      (p : List Nat → Nat → InnerEvmContext Cfg St →
        PrecompileResult × InnerEvmContext Cfg St)
  | contextStatefulMut
      (p : List Nat → Nat → InnerEvmContext Cfg St →
        PrecompileResult × InnerEvmContext Cfg St)

/-- `PrecompilesCow`: either the static default table (ordinary precompiles
only, from the external `revm_precompile::Precompiles`) or an owned map. -/
inductive PrecompilesCow (Cfg St : Type) where
  | staticRef (inner : List (Address × (List Nat → Nat → Cfg → PrecompileResult)))
  | owned (inner : List (Address × ContextPrecompile Cfg St))

/-- `ContextPrecompiles`. -/
structure ContextPrecompiles (Cfg St : Type) where
  inner : PrecompilesCow Cfg St

/-- `ContextPrecompiles::contains` (lines 97–103). -/
def ContextPrecompiles.contains {Cfg St : Type} (self : ContextPrecompiles Cfg St)
    (address : Address) : Bool :=
  match self.inner with
  | .staticRef inner => (alookup address inner).isSome
  | .owned inner => (alookup address inner).isSome

/-- Run one registered precompile on input, gas limit and context. -/
def runContextPrecompile {Cfg St : Type} (p : ContextPrecompile Cfg St)
    (bytes : List Nat) (gas_limit : Nat) (evmctx : InnerEvmContext Cfg St) :
    PrecompileResult × InnerEvmContext Cfg St :=
  match p with
  | .ordinary p => (p bytes gas_limit evmctx.cfg, evmctx)
  | .contextStateful p => p bytes gas_limit evmctx
  | .contextStatefulMut p => p bytes gas_limit evmctx

/-- `ContextPrecompiles::call` (lines 109–126): `None` when the address is not
registered, otherwise the result of the registered precompile on the input and
gas limit (static entries read only `evmctx.env.cfg`). -/
def ContextPrecompiles.call {Cfg St : Type} (self : ContextPrecompiles Cfg St)
    (address : Address) (bytes : List Nat) (gas_limit : Nat)
    (evmctx : InnerEvmContext Cfg St) :
    Option (PrecompileResult × InnerEvmContext Cfg St) :=
  match self.inner with
  | .staticRef p =>
    match alookup address p with
    | none => none
    | some f => some (f bytes gas_limit evmctx.cfg, evmctx)
  | .owned owned =>
    match alookup address owned with
    | none => none
    | some (.ordinary p) => some (p bytes gas_limit evmctx.cfg, evmctx)
    | some (.contextStateful p) => some (p bytes gas_limit evmctx)
    | some (.contextStatefulMut p) => some (p bytes gas_limit evmctx)

/-! ## Inspector frame hooks (`inspector/src/inspector_context.rs`) -/

/-- `FrameInput`: call, create or EOF-create inputs. -/
inductive FrameInput (CI CrI EI : Type) where
  | call (i : CI)
  | create (i : CrI)
  | eofcreate (i : EI)
deriving DecidableEq, Repr

/-- `FrameResult`: the outcome of a call, create or EOF-create frame. -/
inductive FrameResult (CO CrO EO : Type) where
  | call (o : CO)
  | create (o : CrO)
  | eofcreate (o : EO)
deriving DecidableEq, Repr

/-- The inspector hook surface used by `frame_start`/`frame_end`.  Start hooks
are modelled by the optional override they return; end hooks may rewrite the
context and the outcome, so they return both. -/
structure InspectorHooks (Ctx CI CrI EI CO CrO EO : Type) where
  call : Ctx → CI → Option CO
  create : Ctx → CrI → Option CrO
  eofcreate : Ctx → EI → Option EO
  call_end : Ctx → CI → CO → Ctx × CO
  create_end : Ctx → CrI → CrO → Ctx × CrO
  eofcreate_end : Ctx → EI → EO → Ctx × EO

/-- The mutable pieces of `InspectorContext` the frame hooks touch: the wrapped
context and the frame-input stack (a `Vec`, pushed/popped at the end; modelled
with the list head as the stack top). -/
structure InspectorFrameState (Ctx CI CrI EI : Type) where
  inner : Ctx
  frame_input_stack : List (FrameInput CI CrI EI)

/-- `InspectorContext::frame_start` (lines 89–111): if the matching start hook
returns an override, short-circuit with the corresponding `FrameResult` and do
not push; otherwise push the frame input and return `None`. -/
def frame_start {Ctx CI CrI EI CO CrO EO : Type}
    (hooks : InspectorHooks Ctx CI CrI EI CO CrO EO)
    (s : InspectorFrameState Ctx CI CrI EI) (frame_input : FrameInput CI CrI EI) :
    Option (FrameResult CO CrO EO) × InspectorFrameState Ctx CI CrI EI :=
  match frame_input with
  | .call i =>
    match hooks.call s.inner i with
    | some output => (some (.call output), s)
    | none => (none, { s with frame_input_stack := frame_input :: s.frame_input_stack })
  | .create i =>
    match hooks.create s.inner i with
    | some output => (some (.create output), s)
    | none => (none, { s with frame_input_stack := frame_input :: s.frame_input_stack })
  | .eofcreate i =>
    match hooks.eofcreate s.inner i with
    | some output => (some (.eofcreate output), s)
    | none => (none, { s with frame_input_stack := frame_input :: s.frame_input_stack })

/-- `InspectorContext::frame_end` (lines 113–137): pop the frame input and
invoke the end hook matching the outcome variant.  The source `panic!`s on an
empty stack or a variant mismatch; those cases are modelled as `none`. -/
def frame_end {Ctx CI CrI EI CO CrO EO : Type}
    (hooks : InspectorHooks Ctx CI CrI EI CO CrO EO)
    (s : InspectorFrameState Ctx CI CrI EI) (frame_output : FrameResult CO CrO EO) :
    Option (InspectorFrameState Ctx CI CrI EI × FrameResult CO CrO EO) :=
  match s.frame_input_stack with
  | [] => none
  | frame_input :: rest =>
    match frame_output, frame_input with
    | .call outcome, .call i =>
      let r := hooks.call_end s.inner i outcome
      some ({ inner := r.1, frame_input_stack := rest }, .call r.2)
    | .create outcome, .create i =>
      let r := hooks.create_end s.inner i outcome
      some ({ inner := r.1, frame_input_stack := rest }, .create r.2)
    | .eofcreate outcome, .eofcreate i =>
      let r := hooks.eofcreate_end s.inner i outcome
      some ({ inner := r.1, frame_input_stack := rest }, .eofcreate r.2)
    | _, _ => none

/-! ## Taiko handler overrides (`revm/src/taiko/handler_register.rs`) -/

/-- `taiko::reimburse_caller` (lines 25–33): anchor transactions skip the
mainnet reimbursement entirely.  The mainnet `reimburse_caller` lives in a
crate outside `src/` and is abstracted as a state transformer. -/
def taiko_reimburse_caller (mainnet_reimburse : JournalState → JournalState)
    (is_anchor : Bool) (st : JournalState) : JournalState :=
  if is_anchor then st else mainnet_reimburse st

/-- `taiko::reward_beneficiary` (lines 37–61): anchor transactions skip the
reward; otherwise run the mainnet reward (abstracted, its crate is outside
`src/`), then load and touch the treasury account and add
`basefee * (gas.spent() - gas.refunded())` to its balance (ruint `*` wraps,
`U256::saturating_add` saturates; `load_account` warms the treasury). -/
def taiko_reward_beneficiary (mainnet_reward : JournalState → JournalState)
    (is_anchor : Bool) (treasury : Address) (basefee : Nat)
    (gas_spent gas_refunded : Nat) (st : JournalState) : JournalState :=
  if is_anchor then st
  else
    let st := mainnet_reward st
    let st := warm_account st treasury
    let treasury_account := st.accounts treasury
    let treasury_account :=
      { treasury_account with
        touched := true
        info := { treasury_account.info with
          balance := satAddU256 treasury_account.info.balance
            (wrapMulU256 basefee (gas_spent - gas_refunded)) } }
    updateAccount st treasury treasury_account

/-- `taiko::deduct_caller` (lines 65–101): compute the saturated gas cost
(adding the blob data fee from Cancun on), subtract it from the caller's
balance unless the transaction is an anchor, bump the nonce for calls, touch.
`effective_gas_price` and `calc_data_fee` come from the environment (outside
`src/`) and are passed as parameters; `load_account` warms the caller. -/
def taiko_deduct_caller (cancun_enabled : Bool) (gas_limit effective_gas_price : Nat)
    (data_fee : Nat) (is_anchor : Bool) (is_call : Bool) (caller : Address)
    (st : JournalState) : JournalState :=
  let st := warm_account st caller
  let gas_cost := satMulU256 gas_limit effective_gas_price
  let gas_cost := if cancun_enabled then satAddU256 gas_cost data_fee else gas_cost
  let caller_account := st.accounts caller
  let caller_account :=
    if !is_anchor then
      { caller_account with
        info := { caller_account.info with
          balance := caller_account.info.balance - gas_cost } }
    else caller_account
  let caller_account :=
    if is_call then
      { caller_account with
        info := { caller_account.info with
          nonce := satAddU64 caller_account.info.nonce 1 } }
    else caller_account
  updateAccount st caller { caller_account with touched := true }

/-! ## InspectorContext delegation (`inspector/src/inspector_context.rs`, lines 146–270) -/

/-- The operations of a wrapped context, abstracted over its state type `σ`.
Each field corresponds to a trait method the inner context implements. -/
structure CtxOps (σ Cfg Blk Tx Jrnl Db Err : Type) where
  cfg : σ → Cfg
  journal : σ → Jrnl
  db : σ → Db
  tx : σ → Tx
  set_tx : σ → Tx → σ
  block : σ → Blk
  set_block : σ → Blk → σ
  take_error : σ → Except Err Unit × σ
  set_error : σ → Err → σ
  load_access_list : σ → Except Err Unit × σ

/-- The delegating operations `InspectorContext` exposes: every getter reads
from, and every setter rewrites, only the `inner` field, leaving the inspector
and the frame-input stack alone (lines 146–270 of the source are one
delegation per trait). -/
def InspectorContext.cfg {σ Cfg Blk Tx Jrnl Db Err CI CrI EI : Type}
    (ops : CtxOps σ Cfg Blk Tx Jrnl Db Err) (c : InspectorFrameState σ CI CrI EI) : Cfg :=
  ops.cfg c.inner

/-- `JournalGetter::journal` delegation. -/
def InspectorContext.journal {σ Cfg Blk Tx Jrnl Db Err CI CrI EI : Type}
    (ops : CtxOps σ Cfg Blk Tx Jrnl Db Err) (c : InspectorFrameState σ CI CrI EI) : Jrnl :=
  ops.journal c.inner

/-- `DatabaseGetter::db` delegation. -/
def InspectorContext.db {σ Cfg Blk Tx Jrnl Db Err CI CrI EI : Type}
    (ops : CtxOps σ Cfg Blk Tx Jrnl Db Err) (c : InspectorFrameState σ CI CrI EI) : Db :=
  ops.db c.inner

/-- `TransactionGetter::tx` delegation. -/
def InspectorContext.tx {σ Cfg Blk Tx Jrnl Db Err CI CrI EI : Type}
    (ops : CtxOps σ Cfg Blk Tx Jrnl Db Err) (c : InspectorFrameState σ CI CrI EI) : Tx :=
  ops.tx c.inner

/-- `TransactionSetter::set_tx` delegation. -/
def InspectorContext.set_tx {σ Cfg Blk Tx Jrnl Db Err CI CrI EI : Type}
    (ops : CtxOps σ Cfg Blk Tx Jrnl Db Err) (c : InspectorFrameState σ CI CrI EI)
    (t : Tx) : InspectorFrameState σ CI CrI EI :=
  { c with inner := ops.set_tx c.inner t }

/-- `BlockGetter::block` delegation. -/
def InspectorContext.block {σ Cfg Blk Tx Jrnl Db Err CI CrI EI : Type}
    (ops : CtxOps σ Cfg Blk Tx Jrnl Db Err) (c : InspectorFrameState σ CI CrI EI) : Blk :=
  ops.block c.inner

/-- `BlockSetter::set_block` delegation. -/
def InspectorContext.set_block {σ Cfg Blk Tx Jrnl Db Err CI CrI EI : Type}
    (ops : CtxOps σ Cfg Blk Tx Jrnl Db Err) (c : InspectorFrameState σ CI CrI EI)
    (b : Blk) : InspectorFrameState σ CI CrI EI :=
  { c with inner := ops.set_block c.inner b }

/-- `ErrorGetter::take_error` delegation. -/
def InspectorContext.take_error {σ Cfg Blk Tx Jrnl Db Err CI CrI EI : Type}
    (ops : CtxOps σ Cfg Blk Tx Jrnl Db Err) (c : InspectorFrameState σ CI CrI EI) :
    Except Err Unit × InspectorFrameState σ CI CrI EI :=
  let r := ops.take_error c.inner
  (r.1, { c with inner := r.2 })

/-- `Host::set_error` delegation. -/
def InspectorContext.set_error {σ Cfg Blk Tx Jrnl Db Err CI CrI EI : Type}
    (ops : CtxOps σ Cfg Blk Tx Jrnl Db Err) (c : InspectorFrameState σ CI CrI EI)
    (e : Err) : InspectorFrameState σ CI CrI EI :=
  { c with inner := ops.set_error c.inner e }

/-- `PerformantContextAccess::load_access_list` delegation. -/
def InspectorContext.load_access_list {σ Cfg Blk Tx Jrnl Db Err CI CrI EI : Type}
    (ops : CtxOps σ Cfg Blk Tx Jrnl Db Err) (c : InspectorFrameState σ CI CrI EI) :
    Except Err Unit × InspectorFrameState σ CI CrI EI :=
  let r := ops.load_access_list c.inner
  (r.1, { c with inner := r.2 })

/-- Mutating operations on a context, for stating observational transparency
over arbitrary operation sequences. -/
inductive CtxOp (Blk Tx Err : Type) where
  | setTx (t : Tx)
  | setBlock (b : Blk)
  | setError (e : Err)
  | takeError
  | loadAccessList
deriving DecidableEq, Repr

/-- Run an operation sequence directly on the inner context. -/
def runInnerOps {σ Cfg Blk Tx Jrnl Db Err : Type}
    (ops : CtxOps σ Cfg Blk Tx Jrnl Db Err) : List (CtxOp Blk Tx Err) → σ → σ
  | [], s => s
  | .setTx t :: rest, s => runInnerOps ops rest (ops.set_tx s t)
  | .setBlock b :: rest, s => runInnerOps ops rest (ops.set_block s b)
  | .setError e :: rest, s => runInnerOps ops rest (ops.set_error s e)
  | .takeError :: rest, s => runInnerOps ops rest (ops.take_error s).2
  | .loadAccessList :: rest, s => runInnerOps ops rest (ops.load_access_list s).2

/-- Run an operation sequence through the `InspectorContext` delegations. -/
def runInspectorOps {σ Cfg Blk Tx Jrnl Db Err CI CrI EI : Type}
    (ops : CtxOps σ Cfg Blk Tx Jrnl Db Err) :
    List (CtxOp Blk Tx Err) → InspectorFrameState σ CI CrI EI →
    InspectorFrameState σ CI CrI EI
  | [], c => c
  | .setTx t :: rest, c => runInspectorOps ops rest (InspectorContext.set_tx ops c t)
  | .setBlock b :: rest, c => runInspectorOps ops rest (InspectorContext.set_block ops c b)
  | .setError e :: rest, c => runInspectorOps ops rest (InspectorContext.set_error ops c e)
  | .takeError :: rest, c => runInspectorOps ops rest (InspectorContext.take_error ops c).2
  | .loadAccessList :: rest, c =>
      runInspectorOps ops rest (InspectorContext.load_access_list ops c).2

/-! ## Concrete instances used by witnesses and counterexamples -/

/-- A fresh empty account. -/
def exEmptyAccount : Account :=
  { info := { nonce := 0, balance := 0, code_hash := 0, code := none }, touched := false }

/-- A state of empty, cold accounts. -/
def exColdState : JournalState :=
  { accounts := fun _ => exEmptyAccount
    warmAddresses := fun _ => false
    warmSlots := fun _ _ => false
    specId := .FRONTIER }

/-- A valid authorization tuple for the empty state: authority 3 recovers,
chain id matches, nonce matches the empty account's 0. -/
def exAuth : Authorization := { authority := some 3, address := 9, nonce := 0, chainId := 1 }

/-- A hook set over `Nat` everywhere: the call hook overrides input 0 with
output 5 and declines everything else; the other start hooks always decline;
end hooks add the outcome into the context. -/
def exHooks : InspectorHooks Nat Nat Nat Nat Nat Nat Nat :=
  { call := fun _ i => if i = 0 then some 5 else none
    create := fun _ _ => none
    eofcreate := fun _ _ => none
    call_end := fun c i o => (c + i + o, o + 1)
    create_end := fun c i o => (c + i + o, o + 2)
    eofcreate_end := fun c i o => (c + i + o, o + 3) }

/-- A frame state with context 0 and an empty stack. -/
def exFrameState : InspectorFrameState Nat Nat Nat Nat :=
  { inner := 0, frame_input_stack := [] }

/-- An owned precompile table with one ordinary entry at address 7. -/
def exPrecompiles : ContextPrecompiles Nat Nat :=
  { inner := .owned [(7, .ordinary (fun bytes gas _ => .ok ⟨gas, bytes⟩))] }

/-! ## Theorems -/

/-- C5: for both `transact_commit_previous` and `inspect_commit_previous`, an
error from the underlying run is returned unchanged with the database
untouched (since this holds for every commit function, `commit` is never
invoked), and an `Ok` run commits exactly the returned state diff and yields
the inner execution result. -/
theorem commit_previous_spec {E R S DB : Type} (commit : DB → S → DB)
    (run : Except E (ResultAndState R S)) (db : DB) :
    (∀ e, run = .error e →
      transact_commit_previous commit run db = (.error e, db)
      ∧ inspect_commit_previous commit run db = (.error e, db))
    ∧ (∀ r, run = .ok r →
      transact_commit_previous commit run db = (.ok r.result, commit db r.state)
      ∧ inspect_commit_previous commit run db = (.ok r.result, commit db r.state)) := by
  constructor
  · intro e he
    subst he
    exact ⟨rfl, rfl⟩
  · intro r hr
    subst hr
    exact ⟨rfl, rfl⟩

/-- Witness for C5 at a concrete error run and a concrete successful run. -/
theorem commit_previous_spec_witness :
    transact_commit_previous (fun (d : Nat) (s : Nat) => d + s)
        (.error 2 : Except Nat (ResultAndState Nat Nat)) 5 = (.error 2, 5)
    ∧ inspect_commit_previous (fun (d : Nat) (s : Nat) => d + s)
        (.ok ⟨4, 6⟩ : Except Nat (ResultAndState Nat Nat)) 5 = (.ok 4, 11) :=
  ⟨((commit_previous_spec (fun d s => d + s) (.error 2) 5).1 2 rfl).1,
   ((commit_previous_spec (fun d s => d + s) (.ok ⟨4, 6⟩) 5).2 ⟨4, 6⟩ rfl).2⟩

/-- C6: `ContextPrecompiles::call` answers `None` exactly when `contains` is
false, and on a registered address returns `Some` of the registered
precompile's result on that input and gas limit (static entries are ordinary
precompiles reading the config; owned entries dispatch on their variant). -/
theorem contextPrecompiles_call_spec {Cfg St : Type} (self : ContextPrecompiles Cfg St)
    (address : Address) (bytes : List Nat) (gas_limit : Nat)
    (evmctx : InnerEvmContext Cfg St) :
    (self.call address bytes gas_limit evmctx = none ↔ self.contains address = false)
    ∧ (∀ ps f, self.inner = .staticRef ps → alookup address ps = some f →
        self.call address bytes gas_limit evmctx
          = some (f bytes gas_limit evmctx.cfg, evmctx))
    ∧ (∀ m p, self.inner = .owned m → alookup address m = some p →
        self.call address bytes gas_limit evmctx
          = some (runContextPrecompile p bytes gas_limit evmctx)) := by
  refine ⟨?_, ?_, ?_⟩
  · unfold ContextPrecompiles.call ContextPrecompiles.contains
    rcases self with ⟨inner | inner⟩
    · cases h : alookup address inner <;> simp [h]
    · cases h : alookup address inner with
      | none => simp [h]
      | some p => cases p <;> simp [h]
  · intro ps f hinner hlook
    unfold ContextPrecompiles.call
    rw [hinner]
    simp [hlook]
  · intro m p hinner hlook
    unfold ContextPrecompiles.call
    rw [hinner]
    cases p <;> simp [hlook, runContextPrecompile]

/-- Witness for C6 on the one-entry owned table: a hit at address 7 and a miss
at address 8. -/
theorem contextPrecompiles_call_spec_witness :
    exPrecompiles.call 7 [1, 2] 90 ⟨0, 0⟩
      = some (runContextPrecompile (.ordinary (fun bytes gas _ => .ok ⟨gas, bytes⟩)) [1, 2] 90 ⟨0, 0⟩)
    ∧ (exPrecompiles.call 8 [1, 2] 90 ⟨0, 0⟩ = none ↔ exPrecompiles.contains 8 = false) :=
  ⟨(contextPrecompiles_call_spec exPrecompiles 7 [1, 2] 90 ⟨0, 0⟩).2.2
      [(7, .ordinary (fun bytes gas _ => .ok ⟨gas, bytes⟩))]
      (.ordinary (fun bytes gas _ => .ok ⟨gas, bytes⟩)) rfl rfl,
   (contextPrecompiles_call_spec exPrecompiles 8 [1, 2] 90 ⟨0, 0⟩).1⟩

/-- C7: if the matching inspector hook returns `Some(output)`, `frame_start`
short-circuits with the corresponding `FrameResult` variant and leaves the
frame-input stack alone; if the hook returns `None`, it pushes the frame input
and returns `None`, and `frame_end` on the resulting state pops that input and
invokes the matching end hook with it. -/
theorem frame_start_end_spec {Ctx CI CrI EI CO CrO EO : Type}
    (hooks : InspectorHooks Ctx CI CrI EI CO CrO EO)
    (s : InspectorFrameState Ctx CI CrI EI) :
    (∀ i o, hooks.call s.inner i = some o →
      frame_start hooks s (.call i) = (some (.call o), s))
    ∧ (∀ i, hooks.call s.inner i = none →
      frame_start hooks s (.call i)
        = (none, { s with frame_input_stack := .call i :: s.frame_input_stack })
      ∧ ∀ outcome : CO,
        frame_end hooks
            { s with frame_input_stack := FrameInput.call i :: s.frame_input_stack }
            (.call outcome)
          = some ({ inner := (hooks.call_end s.inner i outcome).1
                    frame_input_stack := s.frame_input_stack },
                  .call (hooks.call_end s.inner i outcome).2))
    ∧ (∀ i o, hooks.create s.inner i = some o →
      frame_start hooks s (.create i) = (some (.create o), s))
    ∧ (∀ i, hooks.create s.inner i = none →
      frame_start hooks s (.create i)
        = (none, { s with frame_input_stack := .create i :: s.frame_input_stack })
      ∧ ∀ outcome : CrO,
        frame_end hooks
            { s with frame_input_stack := FrameInput.create i :: s.frame_input_stack }
            (.create outcome)
          = some ({ inner := (hooks.create_end s.inner i outcome).1
                    frame_input_stack := s.frame_input_stack },
                  .create (hooks.create_end s.inner i outcome).2))
    ∧ (∀ i o, hooks.eofcreate s.inner i = some o →
      frame_start hooks s (.eofcreate i) = (some (.eofcreate o), s))
    ∧ (∀ i, hooks.eofcreate s.inner i = none →
      frame_start hooks s (.eofcreate i)
        = (none, { s with frame_input_stack := .eofcreate i :: s.frame_input_stack })
      ∧ ∀ outcome : EO,
        frame_end hooks
            { s with frame_input_stack := FrameInput.eofcreate i :: s.frame_input_stack }
            (.eofcreate outcome)
          = some ({ inner := (hooks.eofcreate_end s.inner i outcome).1
                    frame_input_stack := s.frame_input_stack },
                  .eofcreate (hooks.eofcreate_end s.inner i outcome).2)) := by
  refine ⟨?_, ?_, ?_, ?_, ?_, ?_⟩
  · intro i o h
    simp [frame_start, h]
  · intro i h
    exact ⟨by simp [frame_start, h], fun outcome => by simp [frame_end]⟩
  · intro i o h
    simp [frame_start, h]
  · intro i h
    exact ⟨by simp [frame_start, h], fun outcome => by simp [frame_end]⟩
  · intro i o h
    simp [frame_start, h]
  · intro i h
    exact ⟨by simp [frame_start, h], fun outcome => by simp [frame_end]⟩

/-- Witness for C7: the example call hook overrides input 0 without pushing,
declines input 1 (pushing it), and the subsequent `frame_end` pops input 1 and
runs the end hook. -/
theorem frame_start_end_spec_witness :
    frame_start exHooks exFrameState (.call 0) = (some (.call 5), exFrameState)
    ∧ frame_start exHooks exFrameState (.call 1)
        = (none, { exFrameState with frame_input_stack := [.call 1] })
    ∧ frame_end exHooks
        { exFrameState with frame_input_stack := [FrameInput.call 1] } (.call 10)
        = some ({ inner := (exHooks.call_end exFrameState.inner 1 10).1
                  frame_input_stack := exFrameState.frame_input_stack },
                .call (exHooks.call_end exFrameState.inner 1 10).2) := by
  refine ⟨(frame_start_end_spec exHooks exFrameState).1 0 5 (by decide), ?_, ?_⟩
  · exact ((frame_start_end_spec exHooks exFrameState).2.1 1 (by decide)).1
  · exact ((frame_start_end_spec exHooks exFrameState).2.1 1 (by decide)).2 10

/-- Helper for C10: running any operation sequence through the delegations
changes only the `inner` field, exactly as the inner context would change, and
never touches the frame-input stack. -/
theorem runInspectorOps_inner {σ Cfg Blk Tx Jrnl Db Err CI CrI EI : Type}
    (ops : CtxOps σ Cfg Blk Tx Jrnl Db Err) (ls : List (CtxOp Blk Tx Err)) :
    ∀ c : InspectorFrameState σ CI CrI EI,
      (runInspectorOps ops ls c).inner = runInnerOps ops ls c.inner
      ∧ (runInspectorOps ops ls c).frame_input_stack = c.frame_input_stack := by
  induction ls with
  | nil => intro c; exact ⟨rfl, rfl⟩
  | cons op rest ih =>
    intro c
    cases op with
    | setTx t =>
      exact (ih (InspectorContext.set_tx ops c t))
    | setBlock b =>
      exact (ih (InspectorContext.set_block ops c b))
    | setError e =>
      exact (ih (InspectorContext.set_error ops c e))
    | takeError =>
      exact (ih (InspectorContext.take_error ops c).2)
    | loadAccessList =>
      exact (ih (InspectorContext.load_access_list ops c).2)

/-- C10: `InspectorContext` is observationally transparent to the wrapped
context's environment: every getter returns the inner context's result, every
setter rewrites only the inner context the way the inner setter would, and so
for every operation sequence the environment observed through the wrapper
equals the one observed on the inner context directly. -/
theorem inspectorContext_transparent {σ Cfg Blk Tx Jrnl Db Err CI CrI EI : Type}
    (ops : CtxOps σ Cfg Blk Tx Jrnl Db Err) (ls : List (CtxOp Blk Tx Err))
    (c : InspectorFrameState σ CI CrI EI) (t : Tx) (b : Blk) (e : Err) :
    (runInspectorOps ops ls c).inner = runInnerOps ops ls c.inner
    ∧ InspectorContext.cfg ops (runInspectorOps ops ls c)
        = ops.cfg (runInnerOps ops ls c.inner)
    ∧ InspectorContext.journal ops (runInspectorOps ops ls c)
        = ops.journal (runInnerOps ops ls c.inner)
    ∧ InspectorContext.db ops (runInspectorOps ops ls c)
        = ops.db (runInnerOps ops ls c.inner)
    ∧ InspectorContext.tx ops (runInspectorOps ops ls c)
        = ops.tx (runInnerOps ops ls c.inner)
    ∧ InspectorContext.block ops (runInspectorOps ops ls c)
        = ops.block (runInnerOps ops ls c.inner)
    ∧ (InspectorContext.take_error ops (runInspectorOps ops ls c)).1
        = (ops.take_error (runInnerOps ops ls c.inner)).1
    ∧ (InspectorContext.load_access_list ops (runInspectorOps ops ls c)).1
        = (ops.load_access_list (runInnerOps ops ls c.inner)).1
    ∧ (InspectorContext.set_tx ops c t).inner = ops.set_tx c.inner t
    ∧ (InspectorContext.set_block ops c b).inner = ops.set_block c.inner b
    ∧ (InspectorContext.set_error ops c e).inner = ops.set_error c.inner e
    ∧ (runInspectorOps ops ls c).frame_input_stack = c.frame_input_stack := by
  obtain ⟨h1, h2⟩ := runInspectorOps_inner ops ls c
  refine ⟨h1, ?_, ?_, ?_, ?_, ?_, ?_, ?_, rfl, rfl, rfl, h2⟩
  · simp [InspectorContext.cfg, h1]
  · simp [InspectorContext.journal, h1]
  · simp [InspectorContext.db, h1]
  · simp [InspectorContext.tx, h1]
  · simp [InspectorContext.block, h1]
  · simp [InspectorContext.take_error, h1]
  · simp [InspectorContext.load_access_list, h1]

/-- C8: Taiko anchor transactions skip fee handling: `deduct_caller` leaves
the balance alone while still bumping the nonce for calls, `reimburse_caller`
and `reward_beneficiary` change nothing; non-anchor `reward_beneficiary` runs
the mainnet reward and then credits the treasury with
`basefee * (gas_spent - gas_refunded)`. -/
theorem taiko_anchor_spec (mainnet_reimburse mainnet_reward : JournalState → JournalState)
    (treasury : Address) (basefee gas_spent gas_refunded : Nat)
    (cancun_enabled : Bool) (gas_limit effective_gas_price data_fee : Nat)
    (is_call : Bool) (caller : Address) (st : JournalState) :
    taiko_reimburse_caller mainnet_reimburse true st = st
    ∧ taiko_reward_beneficiary mainnet_reward true treasury basefee gas_spent
        gas_refunded st = st
    ∧ ((taiko_deduct_caller cancun_enabled gas_limit effective_gas_price data_fee
          true is_call caller st).accounts caller).info.balance
        = (st.accounts caller).info.balance
    ∧ ((taiko_deduct_caller cancun_enabled gas_limit effective_gas_price data_fee
          true is_call caller st).accounts caller).info.nonce
        = (if is_call then satAddU64 (st.accounts caller).info.nonce 1
           else (st.accounts caller).info.nonce)
    ∧ ((taiko_reward_beneficiary mainnet_reward false treasury basefee gas_spent
          gas_refunded st).accounts treasury).info.balance
        = satAddU256 ((mainnet_reward st).accounts treasury).info.balance
            (wrapMulU256 basefee (gas_spent - gas_refunded))
    ∧ ((taiko_reward_beneficiary mainnet_reward false treasury basefee gas_spent
          gas_refunded st).accounts treasury).touched = true
    ∧ (∀ x, x ≠ treasury →
        (taiko_reward_beneficiary mainnet_reward false treasury basefee gas_spent
          gas_refunded st).accounts x = (mainnet_reward st).accounts x) := by
  refine ⟨rfl, rfl, ?_, ?_, ?_, ?_, ?_⟩
  · cases is_call <;>
      simp [taiko_deduct_caller, updateAccount, warm_account]
  · cases is_call <;>
      simp [taiko_deduct_caller, updateAccount, warm_account]
  · simp [taiko_reward_beneficiary, updateAccount, warm_account]
  · simp [taiko_reward_beneficiary, updateAccount, warm_account]
  · intro x hx
    simp [taiko_reward_beneficiary, updateAccount, warm_account, hx]

/-- C4: `EthPreExecution::deduct_caller` subtracts `gas_limit * effective_gas_price`
(plus `blob_gasprice * total_blob_gas` for EIP-4844 transactions) from the
caller's balance, bumps the caller's nonce by one (saturating at `u64::MAX`)
exactly when the transaction is a call, and touches the account. -/
theorem deduct_caller_spec (blob_gasprice effective_gas_price gas_limit total_blob_gas : Nat)
    (tx_type : TransactionType) (is_call : Bool) (caller : Address) (st : JournalState) :
    (tx_type ≠ .eip4844 →
      ((EthPreExecution.deduct_caller blob_gasprice effective_gas_price gas_limit
          total_blob_gas tx_type is_call caller st).accounts caller).info.balance
        = (st.accounts caller).info.balance - satMulU256 gas_limit effective_gas_price)
    ∧ (tx_type = .eip4844 →
      ((EthPreExecution.deduct_caller blob_gasprice effective_gas_price gas_limit
          total_blob_gas tx_type is_call caller st).accounts caller).info.balance
        = (st.accounts caller).info.balance
            - satAddU256 (satMulU256 gas_limit effective_gas_price)
                (satMulU256 blob_gasprice total_blob_gas))
    ∧ ((EthPreExecution.deduct_caller blob_gasprice effective_gas_price gas_limit
          total_blob_gas tx_type is_call caller st).accounts caller).info.nonce
        = (if is_call then satAddU64 (st.accounts caller).info.nonce 1
           else (st.accounts caller).info.nonce)
    ∧ ((EthPreExecution.deduct_caller blob_gasprice effective_gas_price gas_limit
          total_blob_gas tx_type is_call caller st).accounts caller).touched = true := by
  refine ⟨?_, ?_, ?_, ?_⟩
  · intro h
    cases is_call <;>
      simp [EthPreExecution.deduct_caller, updateAccount, warm_account, h]
  · intro h
    subst h
    cases is_call <;>
      simp [EthPreExecution.deduct_caller, updateAccount, warm_account]
  · cases is_call <;>
      simp [EthPreExecution.deduct_caller, updateAccount, warm_account]
  · cases is_call <;>
      simp [EthPreExecution.deduct_caller, updateAccount, warm_account]

/-- Witness for C4 at a concrete EIP-4844 call: gas cost `3*7 + 2*5 = 31`
cannot be covered by the empty caller's balance 0, the nonce becomes 1. -/
theorem deduct_caller_spec_witness :
    ((EthPreExecution.deduct_caller 2 7 3 5 .eip4844 true 1 exColdState).accounts 1).info.balance
      = (exColdState.accounts 1).info.balance
          - satAddU256 (satMulU256 3 7) (satMulU256 2 5)
    ∧ ((EthPreExecution.deduct_caller 2 7 3 5 .legacy true 1 exColdState).accounts 1).info.balance
      = (exColdState.accounts 1).info.balance - satMulU256 3 7 :=
  ⟨(deduct_caller_spec 2 7 3 5 .eip4844 true 1 exColdState).2.1 rfl,
   (deduct_caller_spec 2 7 3 5 .legacy true 1 exColdState).1 (by decide)⟩

/-- C9: `deduct_caller` is total and never wraps: the combined gas cost is
saturated below `2^256`, the balance subtraction clamps at zero (yielding zero
whenever the cost is at least the balance) and stays a valid `U256`, and the
nonce stays a valid `u64` thanks to the saturating increment. -/
theorem deduct_caller_total (blob_gasprice effective_gas_price gas_limit total_blob_gas : Nat)
    (tx_type : TransactionType) (is_call : Bool) (caller : Address) (st : JournalState)
    (hb : (st.accounts caller).info.balance ≤ U256_MAX)
    (hn : (st.accounts caller).info.nonce ≤ U64_MAX) :
    deductGasCost blob_gasprice effective_gas_price gas_limit total_blob_gas tx_type
      ≤ U256_MAX
    ∧ ((EthPreExecution.deduct_caller blob_gasprice effective_gas_price gas_limit
          total_blob_gas tx_type is_call caller st).accounts caller).info.balance
        = (st.accounts caller).info.balance
            - deductGasCost blob_gasprice effective_gas_price gas_limit total_blob_gas tx_type
    ∧ ((EthPreExecution.deduct_caller blob_gasprice effective_gas_price gas_limit
          total_blob_gas tx_type is_call caller st).accounts caller).info.balance
        ≤ U256_MAX
    ∧ ((st.accounts caller).info.balance
          ≤ deductGasCost blob_gasprice effective_gas_price gas_limit total_blob_gas tx_type →
        ((EthPreExecution.deduct_caller blob_gasprice effective_gas_price gas_limit
            total_blob_gas tx_type is_call caller st).accounts caller).info.balance = 0)
    ∧ ((EthPreExecution.deduct_caller blob_gasprice effective_gas_price gas_limit
          total_blob_gas tx_type is_call caller st).accounts caller).info.nonce
        ≤ U64_MAX := by
  have hcost : deductGasCost blob_gasprice effective_gas_price gas_limit total_blob_gas
      tx_type ≤ U256_MAX := by
    unfold deductGasCost satAddU256 satMulU256
    split <;> simp [min_le_right]
  have hbal : ((EthPreExecution.deduct_caller blob_gasprice effective_gas_price gas_limit
        total_blob_gas tx_type is_call caller st).accounts caller).info.balance
      = (st.accounts caller).info.balance
          - deductGasCost blob_gasprice effective_gas_price gas_limit total_blob_gas
              tx_type := by
    cases is_call <;>
      simp [EthPreExecution.deduct_caller, deductGasCost, updateAccount, warm_account]
  refine ⟨hcost, hbal, ?_, ?_, ?_⟩
  · rw [hbal]
    exact le_trans (Nat.sub_le _ _) hb
  · intro hle
    rw [hbal]
    omega
  · cases is_call with
    | false =>
      have := (deduct_caller_spec blob_gasprice effective_gas_price gas_limit
        total_blob_gas tx_type false caller st).2.2.1
      simp only [Bool.false_eq_true, if_false] at this
      rw [this]
      exact hn
    | true =>
      have := (deduct_caller_spec blob_gasprice effective_gas_price gas_limit
        total_blob_gas tx_type true caller st).2.2.1
      simp only [if_true] at this
      rw [this]
      exact min_le_right _ _

/-- Witness for C9 on the empty cold state: balance 0, nonce 0 satisfy the
`U256`/`u64` bounds, and the conclusions hold at a legacy create. -/
theorem deduct_caller_total_witness :
    (exColdState.accounts 1).info.balance ≤ U256_MAX
    ∧ (exColdState.accounts 1).info.nonce ≤ U64_MAX
    ∧ ((EthPreExecution.deduct_caller 0 7 3 0 .legacy false 1 exColdState).accounts 1).info.balance
        = (exColdState.accounts 1).info.balance - deductGasCost 0 7 3 0 .legacy :=
  ⟨by decide, by decide,
   (deduct_caller_total 0 7 3 0 .legacy false 1 exColdState (by decide) (by decide)).2.1⟩

/-- Warming storage slots never changes the warm-address set. -/
theorem foldl_warm_slot_warmAddresses (a : Address) (slots : List Nat) :
    ∀ (st : JournalState) (x : Address),
      ((slots.foldl (fun s slot => warm_slot s a slot) st).warmAddresses x)
        = st.warmAddresses x := by
  induction slots with
  | nil => intro st x; rfl
  | cons slot rest ih =>
    intro st x
    simpa using ih (warm_slot st a slot) x

/-- `warm_account_and_storage` warms exactly the given address on top of the
existing warm-address set. -/
theorem warm_account_and_storage_warmAddresses (st : JournalState) (a : Address)
    (slots : List Nat) (x : Address) :
    (warm_account_and_storage st a slots).warmAddresses x
      = if x = a then true else st.warmAddresses x := by
  unfold warm_account_and_storage
  rw [foldl_warm_slot_warmAddresses]
  rfl

/-- Slot-warming fold characterization: a pair is warm afterwards iff it is
one of the listed slots of the warmed address or was warm before. -/
theorem foldl_warm_slot_warmSlots (a : Address) (slots : List Nat) :
    ∀ (st : JournalState) (y : Address) (s : Nat),
      ((slots.foldl (fun s' slot => warm_slot s' a slot) st).warmSlots y s)
        = if y = a ∧ s ∈ slots then true else st.warmSlots y s := by
  induction slots with
  | nil => intro st y s; simp
  | cons slot rest ih =>
    intro st y s
    rw [List.foldl_cons, ih]
    by_cases hy : y = a
    · by_cases hs : s = slot
      · simp [warm_slot, hy, hs]
      · by_cases hr : s ∈ rest <;> simp [warm_slot, hy, hs, hr]
    · simp [warm_slot, hy]

/-- `warm_account_and_storage` warms exactly the listed (address, slot) pairs
on top of the existing warm-slot set. -/
theorem warm_account_and_storage_warmSlots (st : JournalState) (a : Address)
    (slots : List Nat) (y : Address) (s : Nat) :
    (warm_account_and_storage st a slots).warmSlots y s
      = if y = a ∧ s ∈ slots then true else st.warmSlots y s := by
  unfold warm_account_and_storage
  rw [foldl_warm_slot_warmSlots]
  rfl

/-- Access-list fold characterization for warm addresses. -/
theorem foldl_access_warmAddresses (access_list : List (Address × List Nat)) :
    ∀ (st : JournalState) (x : Address),
      ((access_list.foldl (fun s p => warm_account_and_storage s p.1 p.2) st).warmAddresses x)
        = (access_list.any (fun p => p.1 == x) || st.warmAddresses x) := by
  induction access_list with
  | nil => intro st x; simp
  | cons p rest ih =>
    intro st x
    rw [List.foldl_cons, ih, warm_account_and_storage_warmAddresses]
    by_cases hx : x = p.1
    · simp [hx]
    · have hbeq : (p.1 == x) = false := by simpa using Ne.symm hx
      simp [hx, hbeq]

/-- Access-list fold characterization for warm storage slots. -/
theorem foldl_access_warmSlots (access_list : List (Address × List Nat)) :
    ∀ (st : JournalState) (x : Address) (s : Nat),
      ((access_list.foldl (fun s' p => warm_account_and_storage s' p.1 p.2) st).warmSlots x s)
        = (access_list.any (fun p => p.1 == x && p.2.contains s) || st.warmSlots x s) := by
  induction access_list with
  | nil => intro st x s; simp
  | cons p rest ih =>
    intro st x s
    rw [List.foldl_cons, ih, warm_account_and_storage_warmSlots]
    by_cases hx : x = p.1
    · by_cases hs : s ∈ p.2
      · simp [hx, hs]
      · simp [hx, hs]
    · have hbeq : (p.1 == x) = false := by simpa using Ne.symm hx
      simp [hx, hbeq]

/-- Full characterization of the warm-address set after `load_accounts`. -/
theorem load_accounts_warmAddresses (spec : SpecId) (beneficiary : Address)
    (access_list : List (Address × List Nat)) (st : JournalState) (x : Address) :
    (EthPreExecution.load_accounts spec beneficiary access_list st).warmAddresses x
      = (access_list.any (fun p => p.1 == x)
         || (if spec.is_enabled_in .PRAGUE = true ∧ x = BLOCKHASH_STORAGE_ADDRESS then true
             else if spec.is_enabled_in .SHANGHAI = true ∧ x = beneficiary then true
             else st.warmAddresses x)) := by
  unfold EthPreExecution.load_accounts
  rw [foldl_access_warmAddresses]
  by_cases hp : spec.is_enabled_in .PRAGUE = true <;>
    by_cases hs : spec.is_enabled_in .SHANGHAI = true <;>
      by_cases hx1 : x = BLOCKHASH_STORAGE_ADDRESS <;>
        by_cases hx2 : x = beneficiary <;>
          simp [warm_account, hp, hs, hx1, hx2]

/-- Full characterization of the warm-slot set after `load_accounts`. -/
theorem load_accounts_warmSlots (spec : SpecId) (beneficiary : Address)
    (access_list : List (Address × List Nat)) (st : JournalState) (x : Address) (s : Nat) :
    (EthPreExecution.load_accounts spec beneficiary access_list st).warmSlots x s
      = (access_list.any (fun p => p.1 == x && p.2.contains s) || st.warmSlots x s) := by
  unfold EthPreExecution.load_accounts
  rw [foldl_access_warmSlots]
  by_cases hp : spec.is_enabled_in .PRAGUE = true <;>
    by_cases hs : spec.is_enabled_in .SHANGHAI = true <;>
      simp [warm_account, hp, hs]

/-- C3 (amended): `load_accounts` marks warm the coinbase when Shanghai is
enabled, the BLOCKHASH storage address when Prague is enabled, and every
(address, storage-slot) pair of the access list — and nothing else: any
address warm afterwards was warm before or is one of those three sources.  In
particular the sender and the call recipient are NOT warmed here (the sender
is only warmed later, by `deduct_caller`'s account load). -/
theorem load_accounts_spec (spec : SpecId) (beneficiary : Address)
    (access_list : List (Address × List Nat)) (st : JournalState) :
    (spec.is_enabled_in .SHANGHAI = true →
      (EthPreExecution.load_accounts spec beneficiary access_list st).warmAddresses
        beneficiary = true)
    ∧ (spec.is_enabled_in .PRAGUE = true →
      (EthPreExecution.load_accounts spec beneficiary access_list st).warmAddresses
        BLOCKHASH_STORAGE_ADDRESS = true)
    ∧ (∀ p, p ∈ access_list →
        (EthPreExecution.load_accounts spec beneficiary access_list st).warmAddresses
          p.1 = true
        ∧ ∀ slot, slot ∈ p.2 →
          (EthPreExecution.load_accounts spec beneficiary access_list st).warmSlots
            p.1 slot = true)
    ∧ (∀ x,
        (EthPreExecution.load_accounts spec beneficiary access_list st).warmAddresses
          x = true →
        st.warmAddresses x = true
        ∨ (spec.is_enabled_in .SHANGHAI = true ∧ x = beneficiary)
        ∨ (spec.is_enabled_in .PRAGUE = true ∧ x = BLOCKHASH_STORAGE_ADDRESS)
        ∨ ∃ p, p ∈ access_list ∧ p.1 = x) := by
  refine ⟨?_, ?_, ?_, ?_⟩
  · intro hs
    rw [load_accounts_warmAddresses]
    by_cases hb : spec.is_enabled_in .PRAGUE = true ∧ beneficiary = BLOCKHASH_STORAGE_ADDRESS
    · simp [hb]
    · simp [hb, hs]
  · intro hp
    rw [load_accounts_warmAddresses]
    simp [hp]
  · intro p hp
    constructor
    · rw [load_accounts_warmAddresses]
      have : access_list.any (fun q => q.1 == p.1) = true :=
        List.any_eq_true.mpr ⟨p, hp, by simp⟩
      simp [this]
    · intro slot hslot
      rw [load_accounts_warmSlots]
      have : access_list.any (fun q => q.1 == p.1 && q.2.contains slot) = true :=
        List.any_eq_true.mpr ⟨p, hp, by simp [hslot]⟩
      exact Bool.or_eq_true_iff.mpr (Or.inl this)
  · intro x hx
    rw [load_accounts_warmAddresses] at hx
    rcases Bool.or_eq_true_iff.mp hx with hany | hbase
    · obtain ⟨p, hp, hpx⟩ := List.any_eq_true.mp hany
      exact Or.inr (Or.inr (Or.inr ⟨p, hp, by simpa using hpx⟩))
    · by_cases h1 : spec.is_enabled_in .PRAGUE = true ∧ x = BLOCKHASH_STORAGE_ADDRESS
      · exact Or.inr (Or.inr (Or.inl ⟨h1.1, h1.2⟩))
      · rw [if_neg h1] at hbase
        by_cases h2 : spec.is_enabled_in .SHANGHAI = true ∧ x = beneficiary
        · exact Or.inr (Or.inl ⟨h2.1, h2.2⟩)
        · rw [if_neg h2] at hbase
          exact Or.inl hbase

/-- Witness for C3 at Prague with a one-entry access list: the coinbase, the
blockhash storage address and the listed (address, slot) pair come out warm. -/
theorem load_accounts_spec_witness :
    (EthPreExecution.load_accounts .PRAGUE 0 [(4, [11])] exColdState).warmAddresses 0 = true
    ∧ (EthPreExecution.load_accounts .PRAGUE 0 [(4, [11])] exColdState).warmAddresses
        BLOCKHASH_STORAGE_ADDRESS = true
    ∧ (EthPreExecution.load_accounts .PRAGUE 0 [(4, [11])] exColdState).warmSlots 4 11
        = true :=
  ⟨(load_accounts_spec .PRAGUE 0 [(4, [11])] exColdState).1 (by decide),
   (load_accounts_spec .PRAGUE 0 [(4, [11])] exColdState).2.1 (by decide),
   ((load_accounts_spec .PRAGUE 0 [(4, [11])] exColdState).2.2.1 (4, [11])
      (by simp)).2 11 (by simp)⟩

/-- C3 counterexample: at Cancun, with coinbase 0, an empty access list and an
all-cold state, the transaction sender — address 1, a call to recipient 2 —
is still cold after `load_accounts`, contradicting the claim that the warm-up
operation marks the sender (and recipient) warm. -/
theorem load_accounts_sender_cold_cex :
    (EthPreExecution.load_accounts .CANCUN 0 [] exColdState).warmAddresses 1 = false
    ∧ (EthPreExecution.load_accounts .CANCUN 0 [] exColdState).warmAddresses 2 = false := by
  constructor <;> decide

/-- Warming an address leaves the account map untouched. -/
theorem warm_account_accounts (st : JournalState) (a : Address) :
    (warm_account st a).accounts = st.accounts := rfl

/-- When every check passes, `applyAuthorization` warms the authority, installs
the delegation designation with a bumped nonce and touch flag, and counts the
refund for a previously non-empty authority. -/
theorem applyAuthorization_applied (chain_id : Nat) (st : JournalState) (r : Nat)
    (a : Authorization) (authority : Address)
    (ha : a.authority = some authority)
    (happ : authApplies chain_id st a = true) :
    applyAuthorization chain_id st r a
      = (updateAccount (warm_account st authority) authority
          { info := { nonce := satAddU64 (st.accounts authority).info.nonce 1
                      balance := (st.accounts authority).info.balance
                      code_hash := (Bytecode.new_eip7702 a.address).hash_slow
                      code := some (Bytecode.new_eip7702 a.address) }
            touched := true },
         if (st.accounts authority).is_empty then r else r + 1) := by
  simp only [authApplies, ha, Bool.and_eq_true, Bool.or_eq_true, beq_iff_eq] at happ
  obtain ⟨⟨hchain, hcode⟩, hnonce⟩ := happ
  have hchain' : (a.chainId != 0 && a.chainId != chain_id) = false := by
    rcases hchain with h | h <;> simp [h]
  have hcode' : (match (st.accounts authority).info.code with
      | some bytecode => !bytecode.is_empty && !bytecode.is_eip7702
      | none => false) = false := by
    revert hcode
    cases (st.accounts authority).info.code with
    | none => intro _; rfl
    | some bc =>
      intro hcode
      rcases Bool.or_eq_true_iff.mp hcode with h | h <;> simp [h]
  have hnonce' : (a.nonce != (st.accounts authority).info.nonce) = false := by
    simp [hnonce]
  simp only [applyAuthorization, ha, warm_account_accounts, hchain', hcode', hnonce',
    Bool.false_eq_true, if_false]
  by_cases he : (st.accounts authority).is_empty = true <;> simp [he]

/-- When some check fails, `applyAuthorization` leaves every account and the
refund counter unchanged. -/
theorem applyAuthorization_skip (chain_id : Nat) (st : JournalState) (r : Nat)
    (a : Authorization) (hskip : authApplies chain_id st a = false) :
    (∀ x, (applyAuthorization chain_id st r a).1.accounts x = st.accounts x)
    ∧ (applyAuthorization chain_id st r a).2 = r := by
  cases ha : a.authority with
  | none => simp [applyAuthorization, ha]
  | some authority =>
    simp only [authApplies, ha, Bool.and_eq_true, Bool.or_eq_true, beq_iff_eq,
      Bool.eq_false_iff, ne_eq] at hskip
    simp only [applyAuthorization, ha, warm_account_accounts]
    split
    · exact ⟨fun x => rfl, rfl⟩
    · split
      · exact ⟨fun x => rfl, rfl⟩
      · split
        · exact ⟨fun x => rfl, rfl⟩
        · rename_i hchain hcode hnonce
          exfalso
          apply hskip
          refine ⟨⟨?_, ?_⟩, ?_⟩
          · by_contra hne
            push_neg at hne
            exact hchain (by simp [hne.1, hne.2])
          · revert hcode
            cases (st.accounts authority).info.code with
            | none => intro _; rfl
            | some bc =>
              intro hcode
              cases hbe : bc.is_empty with
              | true => simp [hbe]
              | false =>
                cases hb7 : bc.is_eip7702 with
                | true => simp [hb7]
                | false => exact absurd (by simp [hbe, hb7]) hcode
          · by_contra hne
            exact hnonce (by simp [hne])

/-- The resulting state of `applyAuthorization` does not depend on the running
refund counter. -/
theorem applyAuthorization_fst (chain_id : Nat) (st : JournalState)
    (a : Authorization) (r : Nat) :
    (applyAuthorization chain_id st r a).1 = (applyAuthorization chain_id st 0 a).1 := by
  cases ha : a.authority with
  | none => simp [applyAuthorization, ha]
  | some authority =>
    simp only [applyAuthorization, ha]
    split
    · rfl
    · split
      · rfl
      · split
        · rfl
        · rfl

/-- The refund counter advances by exactly one when the authorization applies
to a non-empty authority, and is otherwise unchanged. -/
theorem applyAuthorization_counter (chain_id : Nat) (st : JournalState) (r : Nat)
    (a : Authorization) :
    (applyAuthorization chain_id st r a).2
      = r + (if authApplies chain_id st a && authorityExists st a then 1 else 0) := by
  cases ha : a.authority with
  | none => simp [applyAuthorization, ha, authApplies]
  | some authority =>
    by_cases happ : authApplies chain_id st a = true
    · rw [applyAuthorization_applied chain_id st r a authority ha happ]
      simp only [authorityExists, ha, happ, Bool.true_and]
      by_cases he : (st.accounts authority).is_empty = true <;> simp [he]
    · have h := (applyAuthorization_skip chain_id st r a
        (Bool.eq_false_iff.mpr happ)).2
      rw [h]
      simp [Bool.eq_false_iff.mpr happ]

/-- Folding `applyAuthorization` over a tuple list accumulates exactly the
reference count of applied-while-existing authorizations. -/
theorem auth_foldl_counter (chain_id : Nat) (auths : List Authorization) :
    ∀ (st : JournalState) (r : Nat),
      (auths.foldl (fun (p : JournalState × Nat) a =>
          applyAuthorization chain_id p.1 p.2 a) (st, r)).2
        = r + countExistingApplied chain_id st auths := by
  induction auths with
  | nil => intro st r; simp [countExistingApplied]
  | cons a rest ih =>
    intro st r
    rw [List.foldl_cons]
    have hsplit : applyAuthorization chain_id st r a
        = ((applyAuthorization chain_id st 0 a).1,
           r + (if authApplies chain_id st a && authorityExists st a then 1 else 0)) := by
      rw [Prod.ext_iff]
      exact ⟨applyAuthorization_fst chain_id st a r,
             applyAuthorization_counter chain_id st r a⟩
    rw [hsplit, ih, countExistingApplied]
    omega

/-- C2: for every EIP-7702 transaction the refund returned by
`apply_eip7702_auth_list` is `PER_EMPTY_ACCOUNT_COST - PER_AUTH_BASE_COST`
times the number of authorizations applied while their authority account was
non-empty at application time; skipped tuples contribute nothing. -/
theorem apply_eip7702_auth_list_refund (chain_id : Nat) (auths : List Authorization)
    (st : JournalState) :
    (apply_eip7702_auth_list chain_id .eip7702 auths st).2
      = (PER_EMPTY_ACCOUNT_COST - PER_AUTH_BASE_COST)
          * countExistingApplied chain_id st auths := by
  unfold apply_eip7702_auth_list
  simp only [ne_eq, not_true_eq_false, if_false]
  rw [auth_foldl_counter]
  simp [Nat.mul_comm]

/-- C1: before Prague or for a non-EIP-7702 transaction the operation returns
refund 0 and modifies no account; on Prague for an EIP-7702 transaction each
tuple is applied iff the authority recovers, the chain id is 0 or the
configured one, the authority's code is empty or an EIP-7702 delegation, and
the nonces agree — in which case the delegation bytecode `0xef0100 || address`
is installed, the nonce is bumped by one (saturating at `u64::MAX`), the
account is touched and the balance kept, all other accounts being untouched —
while a failing tuple changes no account and no counter. -/
theorem apply_eip7702_auth_list_spec (spec : SpecId) (chain_id : Nat)
    (tx_type : TransactionType) (auths : List Authorization)
    (st st' : JournalState) (r : Nat) (a : Authorization) :
    (spec.is_enabled_in .PRAGUE = false →
      EthPreExecution.apply_eip7702_auth_list spec chain_id tx_type auths st = (st, 0))
    ∧ (tx_type ≠ .eip7702 →
      apply_eip7702_auth_list chain_id tx_type auths st = (st, 0))
    ∧ (∀ authority, a.authority = some authority →
        authApplies chain_id st' a = true →
        ((applyAuthorization chain_id st' r a).1.accounts authority).info.code
            = some (Bytecode.new_eip7702 a.address)
        ∧ (Bytecode.new_eip7702 a.address).bytes
            = 0xef :: 0x01 :: 0x00 :: addressBytes a.address
        ∧ ((applyAuthorization chain_id st' r a).1.accounts authority).info.nonce
            = satAddU64 (st'.accounts authority).info.nonce 1
        ∧ ((applyAuthorization chain_id st' r a).1.accounts authority).info.balance
            = (st'.accounts authority).info.balance
        ∧ ((applyAuthorization chain_id st' r a).1.accounts authority).touched = true
        ∧ (∀ x, x ≠ authority →
            (applyAuthorization chain_id st' r a).1.accounts x = st'.accounts x)
        ∧ (applyAuthorization chain_id st' r a).2
            = (if (st'.accounts authority).is_empty then r else r + 1))
    ∧ (authApplies chain_id st' a = false →
        (∀ x, (applyAuthorization chain_id st' r a).1.accounts x = st'.accounts x)
        ∧ (applyAuthorization chain_id st' r a).2 = r) := by
  refine ⟨?_, ?_, ?_, ?_⟩
  · intro h
    simp [EthPreExecution.apply_eip7702_auth_list, h]
  · intro h
    simp [apply_eip7702_auth_list, h]
  · intro authority ha happ
    rw [applyAuthorization_applied chain_id st' r a authority ha happ]
    refine ⟨?_, rfl, ?_, ?_, ?_, ?_, rfl⟩
    · simp [updateAccount]
    · simp [updateAccount]
    · simp [updateAccount]
    · simp [updateAccount]
    · intro x hx
      simp [updateAccount, warm_account_accounts, hx]
  · intro h
    exact applyAuthorization_skip chain_id st' r a h

/-- Witness for C1: pre-Prague the operation is inert, and on the all-empty
state the example tuple applies, installing the delegation to address 9 at
authority 3. -/
theorem apply_eip7702_auth_list_spec_witness :
    EthPreExecution.apply_eip7702_auth_list .CANCUN 1 .eip7702 [] exColdState
      = (exColdState, 0)
    ∧ ((applyAuthorization 1 exColdState 0 exAuth).1.accounts 3).info.code
        = some (Bytecode.new_eip7702 9) :=
  ⟨(apply_eip7702_auth_list_spec .CANCUN 1 .eip7702 [] exColdState exColdState 0
      exAuth).1 (by decide),
   ((apply_eip7702_auth_list_spec .CANCUN 1 .eip7702 [] exColdState exColdState 0
      exAuth).2.2.1 3 rfl (by decide)).1⟩

/-- Witness for C8: an anchor reimbursement is inert, and the non-anchor
reward leaves account 5 (not the treasury 4) exactly as the mainnet reward
left it. -/
theorem taiko_anchor_spec_witness :
    taiko_reimburse_caller id true exColdState = exColdState
    ∧ (taiko_reward_beneficiary id false 4 10 7 2 exColdState).accounts 5
        = (id exColdState : JournalState).accounts 5 :=
  ⟨(taiko_anchor_spec id id 4 10 7 2 true 0 0 0 true 0 exColdState).1,
   (taiko_anchor_spec id id 4 10 7 2 true 0 0 0 true 0 exColdState).2.2.2.2.2.2 5
     (by decide)⟩
